import Mathlib

/-!
Verification of the DigitalOcean database log-sink resource
(`digitalocean/database/resource_database_logsink.go`) against its
natural-language specification.

The Go source is shallowly embedded: godo request/response structs become
Lean structures, the Terraform `ResourceData` becomes an explicit record,
each CRUD function becomes a pure function from the prior record and the
remote call's outcome to the resulting record, and the keyed mutex usage
is made observable through an event trace (lock, call-start, call-end,
unlock).  A small interleaving semantics over such traces lets us prove
the mutual-exclusion property the locking is for.
-/

/-- A 32-bit IEEE float, carried as its raw bit pattern.  The source only
ever copies `Timeout` values around (no arithmetic), so an opaque bit
pattern is a faithful carrier. -/
structure Float32 where
  bits : Nat
deriving DecidableEq, Repr

/-- godo's `DatabaseLogsinkConfig` struct: the sink configuration fields. -/
structure DatabaseLogsinkConfig where
  URL : String
  IndexPrefix : String
  IndexDaysMax : Int
  Timeout : Float32
  Server : String
  Port : Int
  TLS : Bool
  Format : String
  Logline : String
  SD : String
  CA : String
  Key : String
  Cert : String
deriving DecidableEq, Repr

/-- godo's `DatabaseLogsink` struct (`Type` is spelled `Type'` because
`Type` is reserved in Lean). -/
structure DatabaseLogsink where
  ID : String
  Name : String
  Type' : String
  Config : DatabaseLogsinkConfig
deriving DecidableEq, Repr

/-- godo's `DatabaseCreateLogsinkRequest`. -/
structure DatabaseCreateLogsinkRequest where
  Name : String
  Type' : String
  Config : DatabaseLogsinkConfig
deriving DecidableEq, Repr

/-- godo's `DatabaseUpdateLogsinkRequest`: it carries only the config. -/
structure DatabaseUpdateLogsinkRequest where
  Config : DatabaseLogsinkConfig
deriving DecidableEq, Repr

/-- A dynamically typed attribute value (`interface\x7b\x7d` in Go), as the
config map stores them. -/
inductive AttrVal where
  | vStr : String → AttrVal
  | vInt : Int → AttrVal
  | vFloat : Float32 → AttrVal
  | vBool : Bool → AttrVal
deriving DecidableEq, Repr

/-- One `map[string]interface\x7b\x7d` config item, as an association list. -/
abbrev ConfigMap := List (String × AttrVal)

/-- The shapes in which the `config` attribute is held by the code: the
Create path reads it as a `*godo.DatabaseLogsinkConfig`, the Update path
as a `[]interface\x7b\x7d` of maps (which is also what
`flattenLogsinkConfig` stores back). -/
inductive ConfigAttr where
  | ptr : DatabaseLogsinkConfig → ConfigAttr
  | listMaps : List ConfigMap → ConfigAttr
deriving DecidableEq, Repr

/-- The Terraform `schema.ResourceData` state the resource functions touch:
`rid` is the SDK identifier (`d.Id()` / `d.SetId`), the other fields are
the declared attributes plus the `id` attribute that
`setDatabaseLogsinkAttributes` writes. -/
structure ResourceData where
  rid : String
  idAttr : String
  clusterId : String
  name : String
  typ : String
  config : Option ConfigAttr
deriving DecidableEq, Repr

/-- One field of the Terraform schema declaration. -/
structure SchemaField where
  required : Bool
  forceNew : Bool
deriving DecidableEq, Repr

/-- The schema of `ResourceDigitalOceanDatabaseLogsink`: `name` and
`cluster_id` are ForceNew, `type` and `config` are not. -/
def logsinkSchema : List (String × SchemaField) :=
  [("name", { required := true, forceNew := true }),
   ("cluster_id", { required := true, forceNew := true }),
   ("type", { required := true, forceNew := false }),
   ("config", { required := true, forceNew := false })]

/-- `makeDatabaseLogsinkID` from the source:
`fmt.Sprintf("%s/logsink/%s", clusterID, name)`. -/
def makeDatabaseLogsinkID (clusterID : String) (name : String) : String :=
  clusterID ++ "/logsink/" ++ name

/-- The parent mutex key each mutating operation derives:
`fmt.Sprintf("digitalocean_database_cluster/%s/log_sinks", clusterID)`. -/
def logsinkMutexKey (clusterID : String) : String :=
  "digitalocean_database_cluster/" ++ clusterID ++ "/log_sinks"

/-- The remote godo calls the resource functions issue. -/
inductive RemoteCall where
  | createCall : String → DatabaseCreateLogsinkRequest → RemoteCall
  | getCall : String → String → RemoteCall
  | updateCall : String → String → DatabaseUpdateLogsinkRequest → RemoteCall
  | deleteCall : String → String → RemoteCall
deriving DecidableEq, Repr

/-- Observable events of one operation: acquiring/releasing a mutex key
from the process-wide `mutexkv` table, and the start/end of the remote
HTTP call. -/
inductive Event where
  | lockEv : String → Event
  | unlockEv : String → Event
  | callStart : RemoteCall → Event
  | callEnd : RemoteCall → Event
deriving DecidableEq, Repr

/-- The trace of a mutating operation: lock the key, perform the remote
call, unlock at return (via `defer`). -/
def mutTrace (k : String) (c : RemoteCall) : List Event :=
  [Event.lockEv k, Event.callStart c, Event.callEnd c, Event.unlockEv k]

/-- How one resource function ends: normal return of the updated data, a
`diag.Errorf` return (carrying the data as it stood, unmutated by the
failed path), or a Go panic (failed type assertion / out-of-range index). -/
inductive OpOutcome where
  | success : ResourceData → OpOutcome
  | failure : String → ResourceData → OpOutcome
  | panicked : OpOutcome
deriving DecidableEq, Repr

/-- Result of running one resource function: its outcome plus the trace of
lock and remote-call events it emitted. -/
structure OpResult where
  outcome : OpOutcome
  events : List Event
deriving DecidableEq, Repr

/-- What `client.Databases.CreateLogsink` returns. -/
inductive CreateOutcome where
  | ok : DatabaseLogsink → CreateOutcome
  | err : String → CreateOutcome
deriving DecidableEq, Repr

/-- What `client.Databases.GetLogsink` returns: the logsink, or a non-nil
error together with the response status (none when `resp` is nil). -/
inductive GetOutcome where
  | ok : DatabaseLogsink → GetOutcome
  | err : Option Nat → String → GetOutcome
deriving DecidableEq, Repr

/-- What `client.Databases.UpdateLogsink` returns: on success the logsink
decoded from the response body (godo 1.125.0 does not return the mutated
object directly), or an error. -/
inductive UpdateOutcome where
  | ok : DatabaseLogsink → UpdateOutcome
  | err : String → UpdateOutcome
deriving DecidableEq, Repr

/-- What `client.Databases.DeleteLogsink` returns: success, or a non-nil
error together with the response status the code never inspects. -/
inductive DeleteOutcome where
  | ok : DeleteOutcome
  | err : Option Nat → String → DeleteOutcome
deriving DecidableEq, Repr

/-- `flattenLogsinkConfig` from the source: builds a single-item list of
one attribute map from the remote config.  Note that the URL is stored
under the key `"urls"` (as in the source), while the schema and
`expandLogsinkConfig` use `"url"`. -/
def flattenLogsinkConfig (config : DatabaseLogsinkConfig) : List ConfigMap :=
  let item : ConfigMap :=
    [("urls", AttrVal.vStr config.URL),
     ("index_prefix", AttrVal.vStr config.IndexPrefix),
     ("index_days_max", AttrVal.vInt config.IndexDaysMax),
     ("timeout", AttrVal.vFloat config.Timeout),
     ("server", AttrVal.vStr config.Server),
     ("port", AttrVal.vInt config.Port),
     ("tls", AttrVal.vBool config.TLS),
     ("format", AttrVal.vStr config.Format),
     ("logline", AttrVal.vStr config.Logline),
     ("sd", AttrVal.vStr config.SD),
     ("ca", AttrVal.vStr config.CA),
     ("key", AttrVal.vStr config.Key),
     ("cert", AttrVal.vStr config.Cert)]
  [item]

/-- Go's `v.(string)` type assertion on a map entry: panics (none) when the
key is missing or the value has another type. -/
def asStr : Option AttrVal → Option String
  | some (AttrVal.vStr s) => some s
  | _ => none

/-- Go's `v.(int)` type assertion on a map entry. -/
def asInt : Option AttrVal → Option Int
  | some (AttrVal.vInt n) => some n
  | _ => none

/-- Go's `v.(float32)` type assertion on a map entry. -/
def asFloat : Option AttrVal → Option Float32
  | some (AttrVal.vFloat x) => some x
  | _ => none

/-- Go's `v.(bool)` type assertion on a map entry. -/
def asBool : Option AttrVal → Option Bool
  | some (AttrVal.vBool b) => some b
  | _ => none

/-- `expandLogsinkConfig` from the source: reads `config[0]` (an
out-of-range panic on the empty list, modelled as `none`) and
type-asserts each of the thirteen keys. -/
def expandLogsinkConfig (config : List ConfigMap) : Option DatabaseLogsinkConfig := do
  let configMap ← config.head?
  let url ← asStr (configMap.lookup "url")
  let indexPfx ← asStr (configMap.lookup "index_prefix")
  let indexDaysMax ← asInt (configMap.lookup "index_days_max")
  let timeout ← asFloat (configMap.lookup "timeout")
  let server ← asStr (configMap.lookup "server")
  let port ← asInt (configMap.lookup "port")
  let tls ← asBool (configMap.lookup "tls")
  let format ← asStr (configMap.lookup "format")
  let logline ← asStr (configMap.lookup "logline")
  let sd ← asStr (configMap.lookup "sd")
  let ca ← asStr (configMap.lookup "ca")
  let key ← asStr (configMap.lookup "key")
  let cert ← asStr (configMap.lookup "cert")
  some { URL := url, IndexPrefix := indexPfx, IndexDaysMax := indexDaysMax,
         Timeout := timeout, Server := server, Port := port, TLS := tls,
         Format := format, Logline := logline, SD := sd, CA := ca,
         Key := key, Cert := cert }

/-- Terraform's `d.GetOk("config")`: set and non-zero. -/
def configGetOk : Option ConfigAttr → Bool
  | none => false
  | some (ConfigAttr.ptr _) => true
  | some (ConfigAttr.listMaps l) => !l.isEmpty

/-- `setDatabaseLogsinkAttributes` from the source: writes `id`, `name`
and `type` from the remote object, and rewrites `config` from the remote
object only when `d.GetOk("config")` reports the attribute as set. -/
def setDatabaseLogsinkAttributes (d : ResourceData) (logsink : DatabaseLogsink) : ResourceData :=
  let d1 : ResourceData :=
    { d with idAttr := logsink.ID, name := logsink.Name, typ := logsink.Type' }
  if configGetOk d1.config then
    { d1 with config := some (ConfigAttr.listMaps (flattenLogsinkConfig logsink.Config)) }
  else d1

/-- `resourceDigitalOceanDatabaseLogsinkCreate` from the source.  The
request is built (type-asserting the `config` attribute) before the lock
is taken; the lock wraps the remote call and is released by `defer` at
return on every path. -/
def resourceDigitalOceanDatabaseLogsinkCreate (d : ResourceData) (remote : CreateOutcome) : OpResult :=
  let clusterID := d.clusterId
  match d.config with
  | some (ConfigAttr.ptr cfg) =>
    let opts : DatabaseCreateLogsinkRequest :=
      { Name := d.name, Type' := d.typ, Config := cfg }
    let key := "digitalocean_database_cluster/" ++ clusterID ++ "/log_sinks"
    let c := RemoteCall.createCall clusterID opts
    match remote with
    | CreateOutcome.err e =>
      { outcome := OpOutcome.failure ("Error creating Database Logsink: " ++ e) d,
        events := mutTrace key c }
    | CreateOutcome.ok logsink =>
      let d1 := { d with rid := makeDatabaseLogsinkID clusterID logsink.Name }
      { outcome := OpOutcome.success (setDatabaseLogsinkAttributes d1 logsink),
        events := mutTrace key c }
  | _ => { outcome := OpOutcome.panicked, events := [] }

/-- `resourceDigitalOceanDatabaseLogsinkRead` from the source: no lock; a
404 response to `GetLogsink` clears the id and returns success, any other
error is propagated, success overwrites the attributes. -/
def resourceDigitalOceanDatabaseLogsinkRead (d : ResourceData) (remote : GetOutcome) : OpResult :=
  let id := d.idAttr
  let clusterID := d.clusterId
  let g := RemoteCall.getCall clusterID id
  match remote with
  | GetOutcome.ok logsink =>
    { outcome := OpOutcome.success (setDatabaseLogsinkAttributes d logsink),
      events := [Event.callStart g, Event.callEnd g] }
  | GetOutcome.err resp msg =>
    if (match resp with | some code => code == 404 | none => false) then
      { outcome := OpOutcome.success { d with rid := "" },
        events := [Event.callStart g, Event.callEnd g] }
    else
      { outcome := OpOutcome.failure ("Error retrieving Database Logsink: " ++ msg) d,
        events := [Event.callStart g, Event.callEnd g] }

/-- `resourceDigitalOceanDatabaseLogsinkUpdate` from the source.  The
request (only a config, expanded from the first element of the `config`
list) is built before the lock; the lock wraps the remote call. -/
def resourceDigitalOceanDatabaseLogsinkUpdate (d : ResourceData) (remote : UpdateOutcome) : OpResult :=
  let clusterID := d.clusterId
  let name := d.name
  match d.config with
  | some (ConfigAttr.listMaps l) =>
    match expandLogsinkConfig l with
    | none => { outcome := OpOutcome.panicked, events := [] }
    | some cfg =>
      let opts : DatabaseUpdateLogsinkRequest := { Config := cfg }
      let key := "digitalocean_database_cluster/" ++ clusterID ++ "/log_sinks"
      let c := RemoteCall.updateCall clusterID name opts
      match remote with
      | UpdateOutcome.err e =>
        { outcome := OpOutcome.failure ("Error updating Database Logsink: " ++ e) d,
          events := mutTrace key c }
      | UpdateOutcome.ok body =>
        { outcome := OpOutcome.success (setDatabaseLogsinkAttributes d body),
          events := mutTrace key c }
  | _ => { outcome := OpOutcome.panicked, events := [] }

/-- `resourceDigitalOceanDatabaseLogsinkDelete` from the source: lock,
remote delete, propagate any error (the response status is never
inspected, so a 404 is an error too), clear the id on success. -/
def resourceDigitalOceanDatabaseLogsinkDelete (d : ResourceData) (remote : DeleteOutcome) : OpResult :=
  let clusterID := d.clusterId
  let id := d.idAttr
  let key := "digitalocean_database_cluster/" ++ clusterID ++ "/log_sinks"
  let c := RemoteCall.deleteCall clusterID id
  match remote with
  | DeleteOutcome.err _ msg =>
    { outcome := OpOutcome.failure ("Error deleting Database Logsink: " ++ msg) d,
      events := mutTrace key c }
  | DeleteOutcome.ok =>
    { outcome := OpOutcome.success { d with rid := "" },
      events := mutTrace key c }

/-- Go's `strings.Contains(s, ",")` for a single-character separator,
over the string's characters. -/
def containsComma (s : String) : Bool :=
  s.data.contains ','

/-- Go's `strings.Split` on a single-character separator, over the
character list: every separator opens a new segment, empty segments are
kept, and the result is never empty. -/
def splitChars (sep : Char) : List Char → List (List Char)
  | [] => [[]]
  | c :: rest =>
    match splitChars sep rest with
    | [] => [[]]
    | g :: gs => if c = sep then [] :: g :: gs else (c :: g) :: gs

/-- Go's `strings.Split(s, ",")`. -/
def goSplitComma (s : String) : List String :=
  (splitChars ',' s.data).map fun l => String.mk l

/-- `resourceDigitalOceanDatabaseLogsinkImport` from the source: the only
check is `strings.Contains(d.Id(), ",")`; on success the first two
comma-separated segments become cluster id and name. -/
def resourceDigitalOceanDatabaseLogsinkImport (d : ResourceData) : Except String ResourceData :=
  if containsComma d.rid then
    let s := goSplitComma d.rid
    let s0 := s.getD 0 ""
    let s1 := s.getD 1 ""
    Except.ok { d with rid := makeDatabaseLogsinkID s0 s1, clusterId := s0, name := s1 }
  else
    Except.error "must use the ID of the source database cluster and the name of the logsink joined with a comma (e.g. `id,name`)"

/-- Number of lock acquisitions in a trace. -/
def lockCount (es : List Event) : Nat :=
  (es.filter fun e => match e with | Event.lockEv _ => true | _ => false).length

/-- Number of lock releases in a trace. -/
def unlockCount (es : List Event) : Nat :=
  (es.filter fun e => match e with | Event.unlockEv _ => true | _ => false).length

/-- True when a trace touches no lock at all. -/
def noLockEvents (es : List Event) : Bool :=
  es.all fun e => match e with
    | Event.lockEv _ => false
    | Event.unlockEv _ => false
    | _ => true

/-- The role of one execution unit in the interleaving model: `some (k, c)`
is a mutating operation whose whole program is `mutTrace k c`; `none` is a
thread whose program never touches the lock table (e.g. a Read). -/
abbrev ThreadSpec := Option (String × RemoteCall)

/-- State of the interleaved system: each thread's remaining program, and
the keyed lock table as an association list from held key to the holding
thread. -/
structure SysState where
  progs : List (List Event)
  held : List (String × Nat)
deriving DecidableEq, Repr

/-- One scheduling step: thread `t` executes its next event.  `lockEv`
requires the key to be free and records the holder; `unlockEv` requires
the stepping thread to hold the key and removes it; call events are
unconditional.  `none` means the step is blocked or invalid. -/
def step (s : SysState) (t : Nat) : Option SysState :=
  match s.progs.get? t with
  | some (Event.lockEv k :: rest) =>
    match s.held.lookup k with
    | none => some { progs := s.progs.set t rest, held := (k, t) :: s.held }
    | some _ => none
  | some (Event.unlockEv k :: rest) =>
    if s.held.lookup k = some t then
      some { progs := s.progs.set t rest, held := s.held.eraseP fun q => q.1 == k }
    else none
  | some (Event.callStart _ :: rest) =>
    some { progs := s.progs.set t rest, held := s.held }
  | some (Event.callEnd _ :: rest) =>
    some { progs := s.progs.set t rest, held := s.held }
  | _ => none

/-- Run a schedule (a list of thread choices) from a state. -/
def run (sched : List Nat) (s : SysState) : Option SysState :=
  match sched with
  | [] => some s
  | t :: rest =>
    match step s t with
    | none => none
    | some s' => run rest s'

/-- The five stages a mutating thread's remaining program can be in:
whole program, locked, inside the remote call, call done, finished. -/
def MutStage (k : String) (c : RemoteCall) (p : List Event) : Prop :=
  p = mutTrace k c ∨
  p = [Event.callStart c, Event.callEnd c, Event.unlockEv k] ∨
  p = [Event.callEnd c, Event.unlockEv k] ∨
  p = [Event.unlockEv k] ∨
  p = []

/-- The stages between lock acquisition and release. -/
def MidStage (k : String) (c : RemoteCall) (p : List Event) : Prop :=
  p = [Event.callStart c, Event.callEnd c, Event.unlockEv k] ∨
  p = [Event.callEnd c, Event.unlockEv k] ∨
  p = [Event.unlockEv k]

/-- Invariant tying thread programs to the lock table (LockInv): every mutating
thread is in one of its five stages, and whenever it is between lock and
unlock the table records it as the holder of its key; threads declared
lock-free stay lock-free. -/
def LockInv (specs : List ThreadSpec) (s : SysState) : Prop :=
  (∀ t k c, specs.get? t = some (some (k, c)) →
     ∃ p, s.progs.get? t = some p ∧ MutStage k c p ∧
       (MidStage k c p → s.held.lookup k = some t)) ∧
  (∀ t, specs.get? t = some none →
     ∃ p, s.progs.get? t = some p ∧ noLockEvents p = true)

/-- Thread `t` is inside its remote mutating call for key `k`: it has
executed `lockEv k` and `callStart` but not `callEnd`. -/
def InCall (specs : List ThreadSpec) (s : SysState) (t : Nat) (k : String) : Prop :=
  ∃ c, specs.get? t = some (some (k, c)) ∧
    s.progs.get? t = some [Event.callEnd c, Event.unlockEv k]

/-- Initial-state agreement between thread roles and programs: every
declared mutator starts with its whole `mutTrace`, every declared
lock-free thread with a program containing no lock events. -/
def ProgsMatch (specs : List ThreadSpec) (ps : List (List Event)) : Prop :=
  (∀ t k c, specs.get? t = some (some (k, c)) → ps.get? t = some (mutTrace k c)) ∧
  (∀ t, specs.get? t = some none →
     ∃ p, ps.get? t = some p ∧ noLockEvents p = true)

/-- A concrete sink configuration used to instantiate the theorems. -/
def cfg0 : DatabaseLogsinkConfig :=
  { URL := "https://example.com", IndexPrefix := "idx", IndexDaysMax := 3,
    Timeout := { bits := 1088421888 }, Server := "localhost", Port := 514,
    TLS := true, Format := "rfc5424", Logline := "", SD := "", CA := "",
    Key := "", Cert := "" }

/-- A concrete remote logsink used to instantiate the theorems. -/
def sink0 : DatabaseLogsink :=
  { ID := "sink-1", Name := "mysink", Type' := "rsyslog", Config := cfg0 }

/-- A concrete attribute map accepted by `expandLogsinkConfig`. -/
def cm0 : ConfigMap :=
  [("url", AttrVal.vStr "https://example.com"),
   ("index_prefix", AttrVal.vStr "idx"),
   ("index_days_max", AttrVal.vInt 3),
   ("timeout", AttrVal.vFloat { bits := 1088421888 }),
   ("server", AttrVal.vStr "localhost"),
   ("port", AttrVal.vInt 514),
   ("tls", AttrVal.vBool true),
   ("format", AttrVal.vStr "rfc5424"),
   ("logline", AttrVal.vStr ""),
   ("sd", AttrVal.vStr ""),
   ("ca", AttrVal.vStr ""),
   ("key", AttrVal.vStr ""),
   ("cert", AttrVal.vStr "")]

/-- A concrete record holding the config in the Create path's shape. -/
def d0 : ResourceData :=
  { rid := "", idAttr := "sink-1", clusterId := "cluster123", name := "mysink",
    typ := "rsyslog", config := some (ConfigAttr.ptr cfg0) }

/-- A concrete record holding the config in the Update path's shape. -/
def dList0 : ResourceData :=
  { d0 with config := some (ConfigAttr.listMaps [cm0]) }

/-- Like `dList0` but with a different `type` attribute. -/
def dList1 : ResourceData :=
  { dList0 with typ := "elasticsearch" }

/-- A concrete record with no `config` attribute stored (as after Import). -/
def dNoCfg : ResourceData :=
  { rid := "cluster123/logsink/mysink", idAttr := "", clusterId := "cluster123",
    name := "mysink", typ := "", config := none }

/-- The remote call of the concrete Create thread in the witness run. -/
def callC : RemoteCall :=
  RemoteCall.createCall "cluster123" { Name := "mysink", Type' := "rsyslog", Config := cfg0 }

/-- The remote call of the concrete Delete thread in the witness run. -/
def callD : RemoteCall :=
  RemoteCall.deleteCall "cluster123" "sink-1"

/-- The shared parent key of the two witness threads. -/
def key0 : String :=
  logsinkMutexKey "cluster123"

/-- Thread roles of the witness run: two mutators on the same key. -/
def specs0 : List ThreadSpec :=
  [some (key0, callC), some (key0, callD)]

/-- Thread programs of the witness run: the event traces of a concrete
Create and a concrete Delete on the same cluster. -/
def ps0 : List (List Event) :=
  [(resourceDigitalOceanDatabaseLogsinkCreate d0 (CreateOutcome.ok sink0)).events,
   (resourceDigitalOceanDatabaseLogsinkDelete d0 DeleteOutcome.ok).events]

/-- The state after thread 0 locked and started its remote call. -/
def s2 : SysState :=
  { progs := [[Event.callEnd callC, Event.unlockEv key0], mutTrace key0 callD],
    held := [(key0, 0)] }

/-- C4: the claimed flatten/expand round-trip fails for every config:
`flattenLogsinkConfig` stores the URL under the key `"urls"` while
`expandLogsinkConfig` (and the schema) read `"url"`, so re-expanding a
flattened config always hits the missing-key type assertion. -/
theorem C4_flatten_expand_url_key_mismatch (cfg : DatabaseLogsinkConfig) :
    expandLogsinkConfig (flattenLogsinkConfig cfg) = none ∧
    ((flattenLogsinkConfig cfg).getD 0 []).lookup "url" = none ∧
    ((flattenLogsinkConfig cfg).getD 0 []).lookup "urls" = some (AttrVal.vStr cfg.URL) :=
  ⟨rfl, rfl, rfl⟩

/-- C2 (amended): Delete propagates every external error, including a
not-found response (the response status is never inspected), leaving the
record unchanged; only a successful delete clears the identifier. -/
theorem C2_delete_propagates_all_errors :
    (∀ d status msg,
       (resourceDigitalOceanDatabaseLogsinkDelete d (DeleteOutcome.err status msg)).outcome =
         OpOutcome.failure ("Error deleting Database Logsink: " ++ msg) d) ∧
    (∀ d, (resourceDigitalOceanDatabaseLogsinkDelete d DeleteOutcome.ok).outcome =
       OpOutcome.success { d with rid := "" }) :=
  ⟨fun _ _ _ => rfl, fun _ => rfl⟩

/-- C2 counterexample: when the remote Delete reports not-found (a 404
error), the operation returns an error and does not clear the identifier,
contradicting the claimed idempotent-delete success. -/
theorem C2_delete_not_found_counterexample :
    (resourceDigitalOceanDatabaseLogsinkDelete d0 (DeleteOutcome.err (some 404) "not found")).outcome =
      OpOutcome.failure "Error deleting Database Logsink: not found" d0 ∧
    (resourceDigitalOceanDatabaseLogsinkDelete d0 (DeleteOutcome.err (some 404) "not found")).outcome ≠
      OpOutcome.success { d0 with rid := "" } :=
  ⟨rfl, by decide⟩

/-- C3 (amended): Import succeeds exactly when the key contains at least
one comma (the only check the code performs); on success the first two
comma-separated segments, possibly empty, become the cluster id and name
and the identifier is synthesized from them; a comma-free key fails with
the format error. -/
theorem C3_import_contains_comma :
    (∀ d, (∃ d', resourceDigitalOceanDatabaseLogsinkImport d = Except.ok d') ↔
       containsComma d.rid = true) ∧
    (∀ d, containsComma d.rid = true →
       resourceDigitalOceanDatabaseLogsinkImport d = Except.ok
         { d with
           rid := makeDatabaseLogsinkID ((goSplitComma d.rid).getD 0 "") ((goSplitComma d.rid).getD 1 ""),
           clusterId := (goSplitComma d.rid).getD 0 "",
           name := (goSplitComma d.rid).getD 1 "" }) ∧
    (∀ d, containsComma d.rid = false →
       resourceDigitalOceanDatabaseLogsinkImport d = Except.error
         "must use the ID of the source database cluster and the name of the logsink joined with a comma (e.g. `id,name`)") ∧
    resourceDigitalOceanDatabaseLogsinkImport { dNoCfg with rid := "cluster123,mysink" } =
      Except.ok { dNoCfg with rid := "cluster123/logsink/mysink", clusterId := "cluster123", name := "mysink" } := by
  have hyes : ∀ d, containsComma d.rid = true →
      resourceDigitalOceanDatabaseLogsinkImport d = Except.ok
        { d with
          rid := makeDatabaseLogsinkID ((goSplitComma d.rid).getD 0 "") ((goSplitComma d.rid).getD 1 ""),
          clusterId := (goSplitComma d.rid).getD 0 "",
          name := (goSplitComma d.rid).getD 1 "" } := by
    intro d h
    simp [resourceDigitalOceanDatabaseLogsinkImport, h]
  have no : ∀ d, containsComma d.rid = false →
      resourceDigitalOceanDatabaseLogsinkImport d = Except.error
        "must use the ID of the source database cluster and the name of the logsink joined with a comma (e.g. `id,name`)" := by
    intro d h
    simp [resourceDigitalOceanDatabaseLogsinkImport, h]
  refine ⟨?_, hyes, no, by rfl⟩
  intro d
  constructor
  · rintro ⟨d', hd⟩
    by_cases h : containsComma d.rid = true
    · exact h
    · rw [Bool.not_eq_true] at h
      rw [no d h] at hd
      exact absurd hd (by simp)
  · intro h
    exact ⟨_, hyes d h⟩

/-- C3 witness: a key with a comma imports successfully with the
synthesized identifier. -/
theorem C3_import_contains_comma_witness :
    containsComma ("cluster123,mysink" : String) = true ∧
    resourceDigitalOceanDatabaseLogsinkImport { dNoCfg with rid := "cluster123,mysink" } =
      Except.ok
        { { dNoCfg with rid := "cluster123,mysink" } with
          rid := makeDatabaseLogsinkID ((goSplitComma "cluster123,mysink").getD 0 "")
                   ((goSplitComma "cluster123,mysink").getD 1 ""),
          clusterId := (goSplitComma "cluster123,mysink").getD 0 "",
          name := (goSplitComma "cluster123,mysink").getD 1 "" } :=
  ⟨by decide, C3_import_contains_comma.2.1 { dNoCfg with rid := "cluster123,mysink" } (by decide)⟩

/-- C3 counterexample: the key "," has exactly one comma but two empty
parts; the claim requires a format failure with no partial state, yet the
code succeeds, seeding empty cluster id and name and the identifier
"/logsink/". -/
theorem C3_import_counterexample :
    resourceDigitalOceanDatabaseLogsinkImport { dNoCfg with rid := "," } =
      Except.ok { dNoCfg with rid := "/logsink/", clusterId := "", name := "" } := by
  rfl

/-- C5: a 404 from GetLogsink makes Read clear the identifier and return
success (drift absorbed); any other Get failure is propagated as a read
error with the record, identifier included, untouched. -/
theorem C5_read_not_found_drift :
    (∀ d msg, (resourceDigitalOceanDatabaseLogsinkRead d (GetOutcome.err (some 404) msg)).outcome =
       OpOutcome.success { d with rid := "" }) ∧
    (∀ d resp msg, resp ≠ some 404 →
       (resourceDigitalOceanDatabaseLogsinkRead d (GetOutcome.err resp msg)).outcome =
         OpOutcome.failure ("Error retrieving Database Logsink: " ++ msg) d) := by
  constructor
  · intro d msg; rfl
  · intro d resp msg h
    match resp with
    | none => rfl
    | some code =>
      have hc : (code == 404) = false := by
        simp only [beq_eq_false_iff_ne, ne_eq]
        intro hh; exact h (by rw [hh])
      simp only [resourceDigitalOceanDatabaseLogsinkRead, hc, Bool.false_eq_true, if_false]

/-- C5 witness: a Get failure with no response (nil `resp`) propagates as
a read error. -/
theorem C5_read_not_found_drift_witness :
    ((none : Option Nat) ≠ some 404) ∧
    (resourceDigitalOceanDatabaseLogsinkRead d0 (GetOutcome.err none "boom")).outcome =
      OpOutcome.failure ("Error retrieving Database Logsink: " ++ "boom") d0 :=
  ⟨by decide, C5_read_not_found_drift.2 d0 none "boom" (by decide)⟩

/-- C6: when the remote Create fails, Create propagates the error with the
record exactly as it was (no identifier, no observed attributes), and the
trace still ends by releasing the derived parent key. -/
theorem C6_create_failure_atomic :
    ∀ d cfg msg, d.config = some (ConfigAttr.ptr cfg) →
      (resourceDigitalOceanDatabaseLogsinkCreate d (CreateOutcome.err msg)).outcome =
        OpOutcome.failure ("Error creating Database Logsink: " ++ msg) d ∧
      (resourceDigitalOceanDatabaseLogsinkCreate d (CreateOutcome.err msg)).events =
        mutTrace (logsinkMutexKey d.clusterId)
          (RemoteCall.createCall d.clusterId { Name := d.name, Type' := d.typ, Config := cfg }) ∧
      ((resourceDigitalOceanDatabaseLogsinkCreate d (CreateOutcome.err msg)).events).getLast? =
        some (Event.unlockEv (logsinkMutexKey d.clusterId)) := by
  intro d cfg msg h
  refine ⟨?_, ?_, ?_⟩ <;>
    simp [resourceDigitalOceanDatabaseLogsinkCreate, h, mutTrace, logsinkMutexKey]

/-- C6 witness: a concrete failed Create leaves the concrete record
untouched and unlocks the derived key last. -/
theorem C6_create_failure_atomic_witness :
    d0.config = some (ConfigAttr.ptr cfg0) ∧
    (resourceDigitalOceanDatabaseLogsinkCreate d0 (CreateOutcome.err "boom")).outcome =
      OpOutcome.failure ("Error creating Database Logsink: " ++ "boom") d0 :=
  ⟨rfl, (C6_create_failure_atomic d0 cfg0 "boom" rfl).1⟩

/-- C7 counterexample: `type` is a mutable field (not ForceNew in the
schema), yet two records differing only in `type` produce identical
Update invocations — the update request carries only the config, so the
claimed "every mutable field is sent" fails for `type`. -/
theorem C7_update_omits_type_counterexample :
    (logsinkSchema.lookup "type").map SchemaField.forceNew = some false ∧
    dList0.typ ≠ dList1.typ ∧
    resourceDigitalOceanDatabaseLogsinkUpdate dList0 (UpdateOutcome.ok sink0) =
      resourceDigitalOceanDatabaseLogsinkUpdate dList1 (UpdateOutcome.ok sink0) ∧
    (resourceDigitalOceanDatabaseLogsinkUpdate dList0 (UpdateOutcome.ok sink0)).events ≠ [] := by
  refine ⟨by decide, by decide, by decide, by decide⟩

/-- C7 (amended): every Update sends the full expanded config — all
thirteen config fields from the first element of the config list — in a
single request addressed by cluster id and name; the request contains no
type field, so the non-force-new `type` attribute is never transmitted. -/
theorem C7_update_sends_full_config :
    ∀ d l cfg r, d.config = some (ConfigAttr.listMaps l) → expandLogsinkConfig l = some cfg →
      (resourceDigitalOceanDatabaseLogsinkUpdate d r).events =
        mutTrace (logsinkMutexKey d.clusterId)
          (RemoteCall.updateCall d.clusterId d.name { Config := cfg }) := by
  intro d l cfg r h hexp
  cases r <;> simp [resourceDigitalOceanDatabaseLogsinkUpdate, h, hexp, logsinkMutexKey]

/-- C7 witness: a concrete Update sends the expanded concrete config. -/
theorem C7_update_sends_full_config_witness :
    dList0.config = some (ConfigAttr.listMaps [cm0]) ∧
    expandLogsinkConfig [cm0] = some cfg0 ∧
    (resourceDigitalOceanDatabaseLogsinkUpdate dList0 (UpdateOutcome.ok sink0)).events =
      mutTrace (logsinkMutexKey dList0.clusterId)
        (RemoteCall.updateCall dList0.clusterId dList0.name { Config := cfg0 }) :=
  ⟨rfl, by decide, C7_update_sends_full_config dList0 [cm0] cfg0 (UpdateOutcome.ok sink0) rfl (by decide)⟩

/-- C8 counterexample: after Import only cluster id and name are seeded,
so `config` is unset; a successful Read then overwrites id, name and type
but leaves `config` unset even though the remote response carries a full
config — the observed attributes are not all overwritten from the remote
response. -/
theorem C8_read_skips_config_counterexample :
    (resourceDigitalOceanDatabaseLogsinkRead dNoCfg (GetOutcome.ok sink0)).outcome =
      OpOutcome.success { dNoCfg with idAttr := "sink-1", name := "mysink", typ := "rsyslog" } ∧
    sink0.Config = cfg0 ∧
    ({ dNoCfg with idAttr := "sink-1", name := "mysink", typ := "rsyslog" } : ResourceData).config = none := by
  refine ⟨by decide, by decide, by decide⟩

/-- C8 (amended): a successful Read overwrites id, name and type from the
remote response unconditionally, and fully replaces the config (no merge)
exactly when a config value is already present (`GetOk`); when the config
attribute is unset it stays unset. -/
theorem C8_read_overwrites_attributes :
    ∀ d sink, (resourceDigitalOceanDatabaseLogsinkRead d (GetOutcome.ok sink)).outcome =
        OpOutcome.success (setDatabaseLogsinkAttributes d sink) ∧
      (setDatabaseLogsinkAttributes d sink).idAttr = sink.ID ∧
      (setDatabaseLogsinkAttributes d sink).name = sink.Name ∧
      (setDatabaseLogsinkAttributes d sink).typ = sink.Type' ∧
      (configGetOk d.config = true →
        (setDatabaseLogsinkAttributes d sink).config =
          some (ConfigAttr.listMaps (flattenLogsinkConfig sink.Config))) ∧
      (configGetOk d.config = false → (setDatabaseLogsinkAttributes d sink).config = d.config) := by
  intro d sink
  by_cases hc : configGetOk d.config = true
  · refine ⟨rfl, ?_, ?_, ?_, fun _ => ?_, fun hf => ?_⟩ <;>
      simp_all [setDatabaseLogsinkAttributes]
  · rw [Bool.not_eq_true] at hc
    refine ⟨rfl, ?_, ?_, ?_, fun ht => ?_, fun _ => ?_⟩ <;>
      simp_all [setDatabaseLogsinkAttributes]

/-- C8 witness: with a config already present, a successful Read replaces
it wholesale with the flattened remote config. -/
theorem C8_read_overwrites_attributes_witness :
    configGetOk dList0.config = true ∧
    (setDatabaseLogsinkAttributes dList0 sink0).config =
      some (ConfigAttr.listMaps (flattenLogsinkConfig sink0.Config)) :=
  ⟨rfl, (C8_read_overwrites_attributes dList0 sink0).2.2.2.2.1 rfl⟩

/-- C10: expanding the config reads the first list element, so the empty
config list is a panic (`none` in the embedding): an Update invoked with
an empty config list panics before taking the lock or calling the remote,
and expansion only ever succeeds on non-empty lists. -/
theorem C10_update_requires_nonempty_config :
    expandLogsinkConfig [] = none ∧
    (∀ d r, d.config = some (ConfigAttr.listMaps []) →
       resourceDigitalOceanDatabaseLogsinkUpdate d r =
         { outcome := OpOutcome.panicked, events := [] }) ∧
    (∀ l cfg, expandLogsinkConfig l = some cfg → l ≠ []) := by
  have he : expandLogsinkConfig [] = none := rfl
  refine ⟨he, ?_, ?_⟩
  · intro d r h
    cases r <;> simp [resourceDigitalOceanDatabaseLogsinkUpdate, h, he]
  · intro l cfg h hl
    subst hl
    rw [he] at h
    exact Option.noConfusion h

/-- C10 witness: a concrete Update on an empty config list panics with no
events, and a concrete successful expansion has a non-empty list. -/
theorem C10_update_requires_nonempty_config_witness :
    ({ dList0 with config := some (ConfigAttr.listMaps []) } : ResourceData).config =
      some (ConfigAttr.listMaps []) ∧
    resourceDigitalOceanDatabaseLogsinkUpdate { dList0 with config := some (ConfigAttr.listMaps []) }
      (UpdateOutcome.ok sink0) = { outcome := OpOutcome.panicked, events := [] } :=
  ⟨rfl, C10_update_requires_nonempty_config.2.1
    { dList0 with config := some (ConfigAttr.listMaps []) } (UpdateOutcome.ok sink0) rfl⟩

/-- C9: on every exit path of Create, Update and Delete the trace balances
lock and unlock on the derived parent key — at most one release, exactly
as many releases as acquisitions, and whenever the lock was taken the
very last event before returning is its release (the deferred unlock), so
release is never skipped on an error path. -/
theorem C9_lock_released_once_every_path :
    (∀ d r, lockCount (resourceDigitalOceanDatabaseLogsinkCreate d r).events =
        unlockCount (resourceDigitalOceanDatabaseLogsinkCreate d r).events ∧
      unlockCount (resourceDigitalOceanDatabaseLogsinkCreate d r).events ≤ 1 ∧
      (0 < lockCount (resourceDigitalOceanDatabaseLogsinkCreate d r).events →
        ((resourceDigitalOceanDatabaseLogsinkCreate d r).events).getLast? =
          some (Event.unlockEv (logsinkMutexKey d.clusterId)))) ∧
    (∀ d r, lockCount (resourceDigitalOceanDatabaseLogsinkUpdate d r).events =
        unlockCount (resourceDigitalOceanDatabaseLogsinkUpdate d r).events ∧
      unlockCount (resourceDigitalOceanDatabaseLogsinkUpdate d r).events ≤ 1 ∧
      (0 < lockCount (resourceDigitalOceanDatabaseLogsinkUpdate d r).events →
        ((resourceDigitalOceanDatabaseLogsinkUpdate d r).events).getLast? =
          some (Event.unlockEv (logsinkMutexKey d.clusterId)))) ∧
    (∀ d r, lockCount (resourceDigitalOceanDatabaseLogsinkDelete d r).events =
        unlockCount (resourceDigitalOceanDatabaseLogsinkDelete d r).events ∧
      unlockCount (resourceDigitalOceanDatabaseLogsinkDelete d r).events ≤ 1 ∧
      (0 < lockCount (resourceDigitalOceanDatabaseLogsinkDelete d r).events →
        ((resourceDigitalOceanDatabaseLogsinkDelete d r).events).getLast? =
          some (Event.unlockEv (logsinkMutexKey d.clusterId)))) := by
  refine ⟨?_, ?_, ?_⟩
  · intro d r
    rcases hc : d.config with _ | ca
    · simp [resourceDigitalOceanDatabaseLogsinkCreate, hc, lockCount, unlockCount]
    · rcases ca with cfg | l
      · cases r <;>
          simp [resourceDigitalOceanDatabaseLogsinkCreate, hc, lockCount, unlockCount,
            mutTrace, logsinkMutexKey, List.getLast?]
      · simp [resourceDigitalOceanDatabaseLogsinkCreate, hc, lockCount, unlockCount]
  · intro d r
    rcases hc : d.config with _ | ca
    · simp [resourceDigitalOceanDatabaseLogsinkUpdate, hc, lockCount, unlockCount]
    · rcases ca with cfg | l
      · simp [resourceDigitalOceanDatabaseLogsinkUpdate, hc, lockCount, unlockCount]
      · rcases he : expandLogsinkConfig l with _ | cfg
        · cases r <;>
            simp [resourceDigitalOceanDatabaseLogsinkUpdate, hc, he, lockCount, unlockCount]
        · cases r <;>
            simp [resourceDigitalOceanDatabaseLogsinkUpdate, hc, he, lockCount, unlockCount,
              mutTrace, logsinkMutexKey, List.getLast?]
  · intro d r
    cases r <;>
      simp [resourceDigitalOceanDatabaseLogsinkDelete, lockCount, unlockCount,
        mutTrace, logsinkMutexKey, List.getLast?]

/-- C9 witness: a concrete failed Delete still ends by releasing the
derived key, with balanced lock counts. -/
theorem C9_lock_released_once_every_path_witness :
    0 < lockCount (resourceDigitalOceanDatabaseLogsinkDelete d0
      (DeleteOutcome.err (some 500) "boom")).events ∧
    ((resourceDigitalOceanDatabaseLogsinkDelete d0 (DeleteOutcome.err (some 500) "boom")).events).getLast? =
      some (Event.unlockEv (logsinkMutexKey d0.clusterId)) :=
  ⟨by decide,
   (C9_lock_released_once_every_path.2.2 d0 (DeleteOutcome.err (some 500) "boom")).2.2 (by decide)⟩

theorem noLockEvents_tail {e : Event} {p : List Event} (h : noLockEvents (e :: p) = true) :
    noLockEvents p = true := by
  simp only [noLockEvents, List.all_cons, Bool.and_eq_true] at h
  exact h.2

theorem lookup_cons_self (k : String) (v : Nat) (l : List (String × Nat)) :
    ((k, v) :: l).lookup k = some v := by
  simp [List.lookup]

theorem lookup_cons_ne (k k' : String) (v : Nat) (l : List (String × Nat)) (h : k' ≠ k) :
    ((k, v) :: l).lookup k' = l.lookup k' := by
  simp [List.lookup, beq_eq_false_iff_ne.2 h]

theorem lookup_eraseP_ne (l : List (String × Nat)) (k k' : String) (h : k' ≠ k) :
    (l.eraseP fun q => q.1 == k).lookup k' = l.lookup k' := by
  induction l with
  | nil => rfl
  | cons q l ih =>
    obtain ⟨a, b⟩ := q
    by_cases ha : a = k
    · subst ha
      simp [List.eraseP_cons, List.lookup, beq_eq_false_iff_ne.2 h]
    · have hpa : ((a, b).1 == k) = false := beq_eq_false_iff_ne.2 ha
      simp only [List.eraseP_cons, hpa, cond_false]
      by_cases hk : k' = a
      · subst hk
        simp [List.lookup]
      · simp only [List.lookup, beq_eq_false_iff_ne.2 hk]
        exact ih

theorem step_lockInv {specs : List ThreadSpec} {s s' : SysState} {t : Nat}
    (hInv : LockInv specs s) (hstep : step s t = some s') : LockInv specs s' := by
  rcases hp : s.progs.get? t with _ | p
  · simp only [step, hp] at hstep
    exact Option.noConfusion hstep
  rcases p with _ | ⟨e, rest⟩
  · simp only [step, hp] at hstep
    exact Option.noConfusion hstep
  rcases e with k | k | c'' | c''
  · -- lockEv
    rcases hl : s.held.lookup k with _ | t'
    case some =>
      simp only [step, hp, hl] at hstep
      exact Option.noConfusion hstep
    simp only [step, hp, hl] at hstep
    obtain rfl := Option.some.inj hstep
    constructor
    · intro u k₀ c₀ hu
      obtain ⟨p, hpu, hstage, hmid⟩ := hInv.1 u k₀ c₀ hu
      by_cases hut : u = t
      · subst hut
        rw [hp] at hpu
        obtain rfl := Option.some.inj hpu
        rcases hstage with h1 | h2 | h3 | h4 | h5
        · simp only [mutTrace, List.cons.injEq, Event.lockEv.injEq] at h1
          obtain ⟨rfl, rfl⟩ := h1
          refine ⟨[Event.callStart c₀, Event.callEnd c₀, Event.unlockEv k], ?_, ?_, ?_⟩
          · rw [List.get?_set_eq, hp]
            rfl
          · exact Or.inr (Or.inl rfl)
          · intro _
            exact lookup_cons_self k u s.held
        · simp at h2
        · simp at h3
        · simp at h4
        · simp at h5
      · refine ⟨p, ?_, hstage, ?_⟩
        · rw [List.get?_set_ne _ _ fun hh => hut hh.symm]
          exact hpu
        · intro hm
          have hold := hmid hm
          have hkk : k₀ ≠ k := by
            intro hh
            subst hh
            rw [hl] at hold
            exact Option.noConfusion hold
          rw [lookup_cons_ne k k₀ t s.held hkk]
          exact hold
    · intro u hu
      obtain ⟨p, hpu, hnl⟩ := hInv.2 u hu
      by_cases hut : u = t
      · subst hut
        rw [hp] at hpu
        obtain rfl := Option.some.inj hpu
        simp [noLockEvents] at hnl
      · refine ⟨p, ?_, hnl⟩
        rw [List.get?_set_ne _ _ fun hh => hut hh.symm]
        exact hpu
  · -- unlockEv
    by_cases hl : s.held.lookup k = some t
    case neg =>
      simp only [step, hp] at hstep
      rw [if_neg hl] at hstep
      exact Option.noConfusion hstep
    simp only [step, hp] at hstep
    rw [if_pos hl] at hstep
    obtain rfl := Option.some.inj hstep
    constructor
    · intro u k₀ c₀ hu
      obtain ⟨p, hpu, hstage, hmid⟩ := hInv.1 u k₀ c₀ hu
      by_cases hut : u = t
      · subst hut
        rw [hp] at hpu
        obtain rfl := Option.some.inj hpu
        rcases hstage with h1 | h2 | h3 | h4 | h5
        · simp [mutTrace] at h1
        · simp at h2
        · simp at h3
        · simp only [List.cons.injEq, Event.unlockEv.injEq] at h4
          obtain ⟨rfl, rfl⟩ := h4
          refine ⟨[], ?_, Or.inr (Or.inr (Or.inr (Or.inr rfl))), ?_⟩
          · rw [List.get?_set_eq, hp]
            rfl
          · intro hm
            rcases hm with h | h | h <;> simp at h
        · simp at h5
      · refine ⟨p, ?_, hstage, ?_⟩
        · rw [List.get?_set_ne _ _ fun hh => hut hh.symm]
          exact hpu
        · intro hm
          have hold := hmid hm
          have hkk : k₀ ≠ k := by
            intro hh
            subst hh
            rw [hl] at hold
            exact hut (Option.some.inj hold).symm
          rw [lookup_eraseP_ne s.held k k₀ hkk]
          exact hold
    · intro u hu
      obtain ⟨p, hpu, hnl⟩ := hInv.2 u hu
      by_cases hut : u = t
      · subst hut
        rw [hp] at hpu
        obtain rfl := Option.some.inj hpu
        simp [noLockEvents] at hnl
      · refine ⟨p, ?_, hnl⟩
        rw [List.get?_set_ne _ _ fun hh => hut hh.symm]
        exact hpu
  · -- callStart
    simp only [step, hp] at hstep
    obtain rfl := Option.some.inj hstep
    constructor
    · intro u k₀ c₀ hu
      obtain ⟨p, hpu, hstage, hmid⟩ := hInv.1 u k₀ c₀ hu
      by_cases hut : u = t
      · subst hut
        rw [hp] at hpu
        obtain rfl := Option.some.inj hpu
        rcases hstage with h1 | h2 | h3 | h4 | h5
        · simp [mutTrace] at h1
        · simp only [List.cons.injEq, Event.callStart.injEq] at h2
          obtain ⟨rfl, rfl⟩ := h2
          refine ⟨[Event.callEnd c'', Event.unlockEv k₀], ?_, Or.inr (Or.inr (Or.inl rfl)), ?_⟩
          · rw [List.get?_set_eq, hp]
            rfl
          · intro _
            exact hmid (Or.inl rfl)
        · simp at h3
        · simp at h4
        · simp at h5
      · refine ⟨p, ?_, hstage, hmid⟩
        rw [List.get?_set_ne _ _ fun hh => hut hh.symm]
        exact hpu
    · intro u hu
      obtain ⟨p, hpu, hnl⟩ := hInv.2 u hu
      by_cases hut : u = t
      · subst hut
        rw [hp] at hpu
        obtain rfl := Option.some.inj hpu
        refine ⟨rest, ?_, noLockEvents_tail hnl⟩
        rw [List.get?_set_eq, hp]
        rfl
      · refine ⟨p, ?_, hnl⟩
        rw [List.get?_set_ne _ _ fun hh => hut hh.symm]
        exact hpu
  · -- callEnd
    simp only [step, hp] at hstep
    obtain rfl := Option.some.inj hstep
    constructor
    · intro u k₀ c₀ hu
      obtain ⟨p, hpu, hstage, hmid⟩ := hInv.1 u k₀ c₀ hu
      by_cases hut : u = t
      · subst hut
        rw [hp] at hpu
        obtain rfl := Option.some.inj hpu
        rcases hstage with h1 | h2 | h3 | h4 | h5
        · simp [mutTrace] at h1
        · simp at h2
        · simp only [List.cons.injEq, Event.callEnd.injEq] at h3
          obtain ⟨rfl, rfl⟩ := h3
          refine ⟨[Event.unlockEv k₀], ?_, Or.inr (Or.inr (Or.inr (Or.inl rfl))), ?_⟩
          · rw [List.get?_set_eq, hp]
            rfl
          · intro _
            exact hmid (Or.inr (Or.inl rfl))
        · simp at h4
        · simp at h5
      · refine ⟨p, ?_, hstage, hmid⟩
        rw [List.get?_set_ne _ _ fun hh => hut hh.symm]
        exact hpu
    · intro u hu
      obtain ⟨p, hpu, hnl⟩ := hInv.2 u hu
      by_cases hut : u = t
      · subst hut
        rw [hp] at hpu
        obtain rfl := Option.some.inj hpu
        refine ⟨rest, ?_, noLockEvents_tail hnl⟩
        rw [List.get?_set_eq, hp]
        rfl
      · refine ⟨p, ?_, hnl⟩
        rw [List.get?_set_ne _ _ fun hh => hut hh.symm]
        exact hpu

theorem run_lockInv {specs : List ThreadSpec} (sched : List Nat) :
    ∀ {s s' : SysState}, LockInv specs s → run sched s = some s' → LockInv specs s' := by
  induction sched with
  | nil =>
    intro s s' hInv hrun
    simp only [run] at hrun
    obtain rfl := Option.some.inj hrun
    exact hInv
  | cons t rest ih =>
    intro s s' hInv hrun
    simp only [run] at hrun
    rcases hs : step s t with _ | s₁
    · rw [hs] at hrun
      exact Option.noConfusion hrun
    · rw [hs] at hrun
      exact ih (step_lockInv hInv hs) hrun

theorem progsMatch_lockInv {specs : List ThreadSpec} {ps : List (List Event)}
    (h : ProgsMatch specs ps) : LockInv specs { progs := ps, held := [] } := by
  constructor
  · intro t k c ht
    refine ⟨mutTrace k c, h.1 t k c ht, Or.inl rfl, ?_⟩
    intro hm
    rcases hm with hh | hh | hh <;> simp [mutTrace] at hh
  · exact h.2

theorem lockInv_mutual_exclusion {specs : List ThreadSpec} {s : SysState}
    (hInv : LockInv specs s) :
    ∀ t1 t2 k, InCall specs s t1 k → InCall specs s t2 k → t1 = t2 := by
  rintro t1 t2 k ⟨c1, hs1, hq1⟩ ⟨c2, hs2, hq2⟩
  obtain ⟨p1, hp1, _, hmid1⟩ := hInv.1 t1 k c1 hs1
  obtain ⟨p2, hp2, _, hmid2⟩ := hInv.1 t2 k c2 hs2
  rw [hq1] at hp1
  obtain rfl := Option.some.inj hp1
  rw [hq2] at hp2
  obtain rfl := Option.some.inj hp2
  have l1 := hmid1 (Or.inr (Or.inl rfl))
  have l2 := hmid2 (Or.inr (Or.inl rfl))
  rw [l1] at l2
  exact Option.some.inj l2

/-- C1: Create, Update and Delete each emit exactly the locked trace on
the key derived from the cluster id (lock, remote call, unlock) whenever
they reach the remote call, Read performs its Get with no lock event at
all, and under the keyed-lock semantics any valid interleaving of such
threads keeps remote mutating calls on the same key mutually exclusive:
two threads simultaneously inside their call for one key are equal. -/
theorem C1_mutating_ops_serialize_per_cluster_key :
    (∀ d r, (resourceDigitalOceanDatabaseLogsinkCreate d r).events = [] ∨
       ∃ c, (resourceDigitalOceanDatabaseLogsinkCreate d r).events =
         mutTrace (logsinkMutexKey d.clusterId) c) ∧
    (∀ d r, (resourceDigitalOceanDatabaseLogsinkUpdate d r).events = [] ∨
       ∃ c, (resourceDigitalOceanDatabaseLogsinkUpdate d r).events =
         mutTrace (logsinkMutexKey d.clusterId) c) ∧
    (∀ d r, (resourceDigitalOceanDatabaseLogsinkDelete d r).events =
       mutTrace (logsinkMutexKey d.clusterId) (RemoteCall.deleteCall d.clusterId d.idAttr)) ∧
    (∀ d r, (resourceDigitalOceanDatabaseLogsinkRead d r).events =
       [Event.callStart (RemoteCall.getCall d.clusterId d.idAttr),
        Event.callEnd (RemoteCall.getCall d.clusterId d.idAttr)] ∧
       noLockEvents (resourceDigitalOceanDatabaseLogsinkRead d r).events = true) ∧
    (∀ specs ps sched s, ProgsMatch specs ps →
       run sched { progs := ps, held := [] } = some s →
       ∀ t1 t2 k, InCall specs s t1 k → InCall specs s t2 k → t1 = t2) := by
  refine ⟨?_, ?_, ?_, ?_, ?_⟩
  · intro d r
    rcases hc : d.config with _ | ca
    · exact Or.inl (by simp [resourceDigitalOceanDatabaseLogsinkCreate, hc])
    · rcases ca with cfg | l
      · refine Or.inr ⟨RemoteCall.createCall d.clusterId
          { Name := d.name, Type' := d.typ, Config := cfg }, ?_⟩
        cases r <;> simp [resourceDigitalOceanDatabaseLogsinkCreate, hc, logsinkMutexKey]
      · exact Or.inl (by simp [resourceDigitalOceanDatabaseLogsinkCreate, hc])
  · intro d r
    rcases hc : d.config with _ | ca
    · exact Or.inl (by simp [resourceDigitalOceanDatabaseLogsinkUpdate, hc])
    · rcases ca with cfg | l
      · exact Or.inl (by simp [resourceDigitalOceanDatabaseLogsinkUpdate, hc])
      · rcases he : expandLogsinkConfig l with _ | cfg
        · exact Or.inl (by cases r <;>
            simp [resourceDigitalOceanDatabaseLogsinkUpdate, hc, he])
        · refine Or.inr ⟨RemoteCall.updateCall d.clusterId d.name { Config := cfg }, ?_⟩
          cases r <;> simp [resourceDigitalOceanDatabaseLogsinkUpdate, hc, he, logsinkMutexKey]
  · intro d r
    cases r <;> rfl
  · intro d r
    cases r with
    | ok sink => exact ⟨rfl, rfl⟩
    | err resp msg =>
      constructor
      · simp only [resourceDigitalOceanDatabaseLogsinkRead]
        split <;> rfl
      · simp only [resourceDigitalOceanDatabaseLogsinkRead]
        split <;> rfl
  · intro specs ps sched s hpm hrun
    exact lockInv_mutual_exclusion (run_lockInv sched (progsMatch_lockInv hpm) hrun)

/-- C1 witness: a concrete two-thread system — a Create and a Delete on
the same cluster — scheduled so that thread 0 is inside its remote call;
the mutual-exclusion conclusion instantiates to thread equality. -/
theorem C1_mutating_ops_serialize_per_cluster_key_witness :
    ProgsMatch specs0 ps0 ∧
    run [0, 0] { progs := ps0, held := [] } = some s2 ∧
    InCall specs0 s2 0 key0 ∧ (0 : Nat) = 0 := by
  have hpm : ProgsMatch specs0 ps0 := by
    constructor
    · intro t k c ht
      rcases t with _ | _ | t
      · simp only [specs0, List.get?, Option.some.injEq] at ht
        obtain ⟨rfl, rfl⟩ := ht
        rfl
      · simp only [specs0, List.get?, Option.some.injEq] at ht
        obtain ⟨rfl, rfl⟩ := ht
        rfl
      · simp [specs0, List.get?] at ht
    · intro t ht
      rcases t with _ | _ | t <;> simp [specs0, List.get?] at ht
  have hrun : run [0, 0] { progs := ps0, held := [] } = some s2 := by rfl
  exact ⟨hpm, hrun, ⟨callC, rfl, rfl⟩,
    C1_mutating_ops_serialize_per_cluster_key.2.2.2.2 specs0 ps0 [0, 0] s2 hpm hrun
      0 0 key0 ⟨callC, rfl, rfl⟩ ⟨callC, rfl, rfl⟩⟩
